import Mathlib

/-!
Verification development for the Loop habit tracker.

Shallow embedding conventions:
* A calendar day identifier ("YYYY-MM-DD" local string) is embedded as an
  integer day index; lexicographic string order on same-era day strings
  coincides with the numeric order of the indices, `setDate(getDate() - 1)`
  is index subtraction by one, and the parse/format round trip
  (`new Date(s)` followed by `formatDateLocal`) is the identity.
  Index 0 corresponds to 1970-01-01, a Thursday, so the JavaScript
  `getDay()` of index `d` is `(d + 4) % 7` with Sunday = 0.
* Timestamps (`new Date()` stored in `updatedAt`) are embedded as integers
  supplied by the caller as an ambient-clock parameter `now`; the current
  day is likewise an explicit parameter `today`.
* JavaScript objects used as string-keyed records are embedded as
  association lists; JavaScript `Map` is embedded the same way.
* JavaScript numbers are embedded as rationals; the one place where
  IEEE special values matter (division by a zero `goalDays`) uses the
  dedicated `JsNum` type which carries NaN and the infinities.
-/

namespace Loop

/-- JavaScript day-of-week (`Date.getDay`, Sunday = 0) of an embedded day
index, anchored at index 0 = 1970-01-01 (a Thursday). -/
def jsDayOfWeek (d : Int) : Int := (d + 4) % 7

/-- Base habit entity, from the final revision of the abstract `Habit`
class: fields `id`, `action`, `goalDays`, `createdAt`, `updatedAt`,
`currentStreak`, `completedDays`, `daysPerWeekDone`, `isActive`. -/
structure Habit where
  id : String
  action : String
  goalDays : Int
  createdAt : Int
  updatedAt : Int
  currentStreak : Nat
  completedDays : List Int
  daysPerWeekDone : Nat
  isActive : Bool
deriving Repr, DecidableEq

/-- The backward walk of `updateStreak`: starting from an expected
predecessor day and an accumulated streak, consume the remaining days
(latest first); each day equal to the expected one increments the streak
and moves the expectation one day earlier, the first mismatch stops. -/
def streakWalk : Int → Nat → List Int → Nat
  | _, streak, [] => streak
  | expected, streak, d :: rest =>
      if d = expected then streakWalk (expected - 1) (streak + 1) rest
      else streak

/-- The streak value recomputed by `Habit.updateStreak`: empty history
gives 0; otherwise sort the completed days ascending and walk backward
from the latest entry. The first iteration of the source loop is
special-cased on whether the latest entry equals today: if so the
expected predecessor becomes yesterday, otherwise the walk starts with
the expectation still anchored at today. -/
def computeStreak (today : Int) (days : List Int) : Nat :=
  if days = [] then 0
  else
    match (List.insertionSort (· ≤ ·) days).reverse with
    | [] => 1
    | last :: rest =>
        if last = today then streakWalk (today - 1) 1 rest
        else streakWalk today 1 (last :: rest)

/-- `Habit.updateStreak` stores the recomputed streak. -/
def updateStreak (today : Int) (h : Habit) : Habit :=
  { h with currentStreak := computeStreak today h.completedDays }

/-- The counting loop of `updateWeeklyProgress`: for each offset `i` of the
week, stop as soon as the candidate day passes today, otherwise count the
candidate when it belongs to the completed days. -/
def weekCount (today weekStart : Int) (days : List Int) : List Nat → Nat
  | [] => 0
  | i :: rest =>
      let checkDate := weekStart + (i : Int)
      if today < checkDate then 0
      else (if checkDate ∈ days then 1 else 0) + weekCount today weekStart days rest

/-- The weekly count recomputed by `Habit.updateWeeklyProgress`: compute
the Monday of the current week (Sunday maps to six days back, any other
weekday `w` to `1 - w` relative days) and count the completed days of
that week up to today. -/
def computeWeekDone (today : Int) (days : List Int) : Nat :=
  let day := jsDayOfWeek today
  let weekStart := today - day + (if day = 0 then -6 else 1)
  weekCount today weekStart days (List.range 7)

/-- `Habit.updateWeeklyProgress` stores the recomputed weekly count. -/
def updateWeeklyProgress (today : Int) (h : Habit) : Habit :=
  { h with daysPerWeekDone := computeWeekDone today h.completedDays }

/-- `Habit.markDayAsCompleted`: insert the day only when absent, then
recompute weekly progress and streak and bump `updatedAt`; when the day is
already present nothing at all happens. -/
def markDayAsCompleted (today now day : Int) (h : Habit) : Habit :=
  if day ∈ h.completedDays then h
  else
    let h1 := { h with completedDays := h.completedDays ++ [day] }
    let h2 := updateWeeklyProgress today h1
    let h3 := updateStreak today h2
    { h3 with updatedAt := now }

/-- `Habit.unmarkDayAsCompleted`: filter the day out, recompute weekly
progress and streak, bump `updatedAt`. -/
def unmarkDayAsCompleted (today now day : Int) (h : Habit) : Habit :=
  let h1 := { h with completedDays := h.completedDays.filter (fun d => d ≠ day) }
  let h2 := updateWeeklyProgress today h1
  let h3 := updateStreak today h2
  { h3 with updatedAt := now }

/-- `Habit.markAsCompleted` (the generic mark used by the repository):
mark the current day. -/
def markAsCompleted (today now : Int) (h : Habit) : Habit :=
  markDayAsCompleted today now today h

/-- `Habit.unmarkAsCompleted`: unmark the current day. -/
def unmarkAsCompleted (today now : Int) (h : Habit) : Habit :=
  unmarkDayAsCompleted today now today h

/-- `Habit.isCompletedToday`. -/
def isCompletedToday (today : Int) (h : Habit) : Bool :=
  decide (today ∈ h.completedDays)

/-- `Habit.isGoalReached` (final revision: total count only). -/
def isGoalReached (h : Habit) : Bool :=
  decide ((h.completedDays.length : Int) ≥ h.goalDays)

/-- `Habit.edit`: apply the action when supplied; apply the goal only when
supplied and positive (a non-positive goal is silently ignored);
`updatedAt` is bumped unconditionally. -/
def edit (action? : Option String) (goalDays? : Option Int) (now : Int) (h : Habit) : Habit :=
  let h1 := match action? with
    | some a => { h with action := a }
    | none => h
  let h2 := match goalDays? with
    | some g => if g > 0 then { h1 with goalDays := g } else h1
    | none => h1
  { h2 with updatedAt := now }

/-- The `Habit` constructor with its default arguments, as invoked with
only `action` and `goalDays` by the repository: fresh id and timestamps
are ambient parameters, history starts empty, the habit starts active. -/
def mkHabit (action : String) (goalDays : Int) (freshId : String) (now : Int) : Habit :=
  { id := freshId, action := action, goalDays := goalDays, createdAt := now,
    updatedAt := now, currentStreak := 0, completedDays := [],
    daysPerWeekDone := 0, isActive := true }

/-- A JavaScript number restricted to the values `getProgress` can take:
a finite value (embedded exactly as a rational), NaN, or an infinity. -/
inductive JsNum where
  | num : ℚ → JsNum
  | nan : JsNum
  | inf : JsNum
  | ninf : JsNum
deriving Repr, DecidableEq

/-- JavaScript division on `JsNum` for finite operands: division by zero
yields NaN for a zero dividend and a signed infinity otherwise. -/
def jsDiv (a b : ℚ) : JsNum :=
  if b = 0 then
    if a = 0 then JsNum.nan else if 0 < a then JsNum.inf else JsNum.ninf
  else JsNum.num (a / b)

/-- JavaScript multiplication of a `JsNum` by a positive finite constant. -/
def jsMulPos (x : JsNum) (c : ℚ) : JsNum :=
  match x with
  | JsNum.num q => JsNum.num (q * c)
  | JsNum.nan => JsNum.nan
  | JsNum.inf => JsNum.inf
  | JsNum.ninf => JsNum.ninf

/-- `Math.min` of a `JsNum` and a finite constant: NaN propagates,
infinities compare as extremes. -/
def jsMin (x : JsNum) (c : ℚ) : JsNum :=
  match x with
  | JsNum.num q => JsNum.num (min q c)
  | JsNum.nan => JsNum.nan
  | JsNum.inf => JsNum.num c
  | JsNum.ninf => JsNum.ninf

/-- `Habit.getProgress`: `Math.min((completedDays.length / goalDays) * 100, 100)`
with no guard on `goalDays`. -/
def getProgress (h : Habit) : JsNum :=
  jsMin (jsMulPos (jsDiv (h.completedDays.length : ℚ) (h.goalDays : ℚ)) 100) 100

/-! ## GroupHabit -/

/-- Lookup in the `memberCompletedDays` record (a string-keyed object). -/
def lookupDays : List (String × List Int) → String → Option (List Int)
  | [], _ => none
  | e :: rest, p => if e.1 = p then some e.2 else lookupDays rest p

/-- Update (or insert) one key of the `memberCompletedDays` record,
keeping insertion order as a JavaScript object does. -/
def setDays : List (String × List Int) → String → List Int → List (String × List Int)
  | [], p, v => [(p, v)]
  | e :: rest, p, v => if e.1 = p then (p, v) :: rest else e :: setDays rest p v

/-- The `GroupHabit` constructor loop that gives every listed member an
entry in `memberCompletedDays` (only genuinely missing keys are set). -/
def initMemberDays (phones : List String) (m : List (String × List Int)) :
    List (String × List Int) :=
  phones.foldl (fun acc p => if (lookupDays acc p).isSome then acc else acc ++ [(p, [])]) m

/-- `GroupHabit`: the base entity plus member identifiers, the shareable
group code, per-member completion records and the failed days. -/
structure GroupHabit where
  base : Habit
  phoneNumbers : List String
  groupId : String
  memberCompletedDays : List (String × List Int)
  failedDays : List Int
deriving Repr, DecidableEq

/-- The per-member day set as read by the source
(`memberCompletedDays[p] || []`). -/
def memberDays (g : GroupHabit) (p : String) : List Int :=
  (lookupDays g.memberCompletedDays p).getD []

/-- The `GroupHabit` constructor: build the base habit, keep the given
group code when present (else the generated one), and initialize an entry
for every member. -/
def mkGroupHabit (action : String) (goalDays : Int) (phoneNumbers : List String)
    (completedDays : List Int) (freshId : String) (createdAt updatedAt : Int)
    (currentStreak daysPerWeekDone : Nat) (isActive : Bool)
    (groupId? : Option String) (genCode : String)
    (memberCompletedDays : List (String × List Int)) (failedDays : List Int) : GroupHabit :=
  { base := { id := freshId, action := action, goalDays := goalDays,
              createdAt := createdAt, updatedAt := updatedAt,
              currentStreak := currentStreak, completedDays := completedDays,
              daysPerWeekDone := daysPerWeekDone, isActive := isActive }
    phoneNumbers := phoneNumbers
    groupId := groupId?.getD genCode
    memberCompletedDays := initMemberDays phoneNumbers memberCompletedDays
    failedDays := failedDays }

/-- `new GroupHabit(action, goalDays, phoneNumbers)` as invoked by the
repository: every other constructor argument takes its default. -/
def createGroupHabitEntity (action : String) (goalDays : Int) (phones : List String)
    (freshId genCode : String) (now : Int) : GroupHabit :=
  mkGroupHabit action goalDays phones [] freshId now now 0 0 true none genCode [] []

/-- `GroupHabit.isGroupCompletedOn`: false for a group with no members,
else true exactly when every member completed the day. -/
def isGroupCompletedOn (g : GroupHabit) (day : Int) : Bool :=
  if g.phoneNumbers.isEmpty then false
  else g.phoneNumbers.all (fun p => decide (day ∈ memberDays g p))

/-- `GroupHabit.addPhoneNumber`: idempotent append; a new member also gets
an empty record entry; `updatedAt` bumps only on an actual add. -/
def addPhoneNumber (now : Int) (p : String) (g : GroupHabit) : GroupHabit :=
  if p ∈ g.phoneNumbers then g
  else
    let mcd := if (lookupDays g.memberCompletedDays p).isSome then g.memberCompletedDays
      else g.memberCompletedDays ++ [(p, [])]
    { g with phoneNumbers := g.phoneNumbers ++ [p],
             memberCompletedDays := mcd,
             base := { g.base with updatedAt := now } }

/-- Delete one key of the record, as `delete obj[p]` does. -/
def deleteKey (m : List (String × List Int)) (p : String) : List (String × List Int) :=
  m.filter (fun e => e.1 ≠ p)

/-- `GroupHabit.removePhoneNumber`: drop the member and the whole record
entry, bump `updatedAt`. -/
def removePhoneNumber (now : Int) (p : String) (g : GroupHabit) : GroupHabit :=
  { g with phoneNumbers := g.phoneNumbers.filter (fun q => q ≠ p),
           memberCompletedDays := deleteKey g.memberCompletedDays p,
           base := { g.base with updatedAt := now } }

/-- `GroupHabit.markMemberCompleted`: `none` models the thrown error for a
non-member; a day the group already failed is a silent full no-op;
otherwise the day is recorded for the member (idempotently) and, when now
every member has completed it, promoted via the base `markDayAsCompleted`;
finally `updatedAt` bumps. The optional date argument defaults to today. -/
def markMemberCompleted (today now : Int) (phone : String) (dateStr? : Option Int)
    (g : GroupHabit) : Option GroupHabit :=
  let day := dateStr?.getD today
  if phone ∈ g.phoneNumbers then
    if day ∈ g.failedDays then some g
    else
      let arr := (lookupDays g.memberCompletedDays phone).getD []
      let arr2 := if day ∈ arr then arr else arr ++ [day]
      let g1 := { g with memberCompletedDays := setDays g.memberCompletedDays phone arr2 }
      let g2 := if isGroupCompletedOn g1 day
        then { g1 with base := markDayAsCompleted today now day g1.base }
        else g1
      some { g2 with base := { g2.base with updatedAt := now } }
  else none

/-- `GroupHabit.failGroupOn`: record the failed day, clear that day from
every member record, remove the group completion for the day and reset the
streak to zero. -/
def failGroupOn (today now day : Int) (g : GroupHabit) : GroupHabit :=
  let fd := if day ∈ g.failedDays then g.failedDays else g.failedDays ++ [day]
  let mcd := g.phoneNumbers.foldl
    (fun m p => setDays m p (((lookupDays m p).getD []).filter (fun d => d ≠ day)))
    g.memberCompletedDays
  let g1 := { g with failedDays := fd, memberCompletedDays := mcd }
  let g2 := { g1 with base := unmarkDayAsCompleted today now day g1.base }
  { g2 with base := { g2.base with currentStreak := 0 } }

/-- `GroupHabit.finalizeDay`: a no-op when the day already failed; when the
group did not complete the day it fails; otherwise the day is promoted if
it was not recorded yet; `updatedAt` bumps in the non-trivial branches. -/
def finalizeDay (today now day : Int) (g : GroupHabit) : GroupHabit :=
  if day ∈ g.failedDays then g
  else if ¬ isGroupCompletedOn g day then
    let g1 := failGroupOn today now day g
    { g1 with base := { g1.base with updatedAt := now } }
  else
    let g1 := if day ∈ g.base.completedDays then g
      else { g with base := markDayAsCompleted today now day g.base }
    { g1 with base := { g1.base with updatedAt := now } }

/-- The generic `markAsCompleted` inherited from the base class, as the
repository applies it to a group habit: it marks today directly on the
base record, bypassing the per-member accounting and the failed-day lock. -/
def groupMarkAsCompleted (today now : Int) (g : GroupHabit) : GroupHabit :=
  { g with base := markAsCompleted today now g.base }

/-- The generic `unmarkAsCompleted` applied to a group habit. -/
def groupUnmarkAsCompleted (today now : Int) (g : GroupHabit) : GroupHabit :=
  { g with base := unmarkAsCompleted today now g.base }

/-! ## HabitManager -/

/-- A stored habit is either a solo habit (which adds nothing to the base
contract) or a group habit. -/
inductive RHabit where
  | solo : Habit → RHabit
  | group : GroupHabit → RHabit
deriving Repr, DecidableEq

/-- The `isActive` flag of a stored habit. -/
def RHabit.active : RHabit → Bool
  | RHabit.solo h => h.isActive
  | RHabit.group g => g.base.isActive

/-- Soft-delete mutation on a stored habit: clear `isActive`, bump
`updatedAt`. -/
def RHabit.deactivate (now : Int) : RHabit → RHabit
  | RHabit.solo h => RHabit.solo { h with isActive := false, updatedAt := now }
  | RHabit.group g => RHabit.group { g with base := { g.base with isActive := false, updatedAt := now } }

/-- The manager state: the `Map` of habits keyed by id, embedded as an
insertion-ordered association list. -/
structure HabitManager where
  habits : List (String × RHabit)
deriving Repr, DecidableEq

/-- The `MAX_HABITS` policy constant. -/
def MAX_HABITS : Nat := 3

/-- `Map.set`: replace the value when the key exists, else append. -/
def mapSet (m : List (String × RHabit)) (k : String) (v : RHabit) :
    List (String × RHabit) :=
  if m.any (fun e => e.1 = k) then m.map (fun e => if e.1 = k then (k, v) else e)
  else m ++ [(k, v)]

/-- `HabitManager.getAllHabits`. -/
def getAllHabits (m : HabitManager) : List RHabit :=
  m.habits.map (fun e => e.2)

/-- `HabitManager.getActiveHabits`. -/
def getActiveHabits (m : HabitManager) : List RHabit :=
  (getAllHabits m).filter RHabit.active

/-- `HabitManager.isAtMaxHabits`. -/
def isAtMaxHabits (m : HabitManager) : Bool :=
  decide (MAX_HABITS ≤ (getActiveHabits m).length)

/-- `HabitManager.createSoloHabit`: `none` models the null result at
capacity; otherwise the fresh habit is stored and returned. -/
def createSoloHabit (action : String) (goalDays : Int) (freshId : String) (now : Int)
    (m : HabitManager) : Option (Habit × HabitManager) :=
  if isAtMaxHabits m then none
  else
    let habit := mkHabit action goalDays freshId now
    some (habit, { habits := mapSet m.habits habit.id (RHabit.solo habit) })

/-- `HabitManager.createGroupHabit`: same capacity gate, storing a fresh
group habit. -/
def createGroupHabit (action : String) (goalDays : Int) (phones : List String)
    (freshId genCode : String) (now : Int) (m : HabitManager) :
    Option (GroupHabit × HabitManager) :=
  if isAtMaxHabits m then none
  else
    let habit := createGroupHabitEntity action goalDays phones freshId genCode now
    some (habit, { habits := mapSet m.habits habit.base.id (RHabit.group habit) })

/-- `HabitManager.deleteHabit` (soft delete): when the id is present the
habit is deactivated in place and `true` is returned. -/
def deleteHabit (now : Int) (targetId : String) (m : HabitManager) :
    HabitManager × Bool :=
  if m.habits.any (fun e => e.1 = targetId) then
    ({ habits := m.habits.map
        (fun e => if e.1 = targetId then (e.1, e.2.deactivate now) else e) }, true)
  else (m, false)

/-- `HabitManager.removeHabitPermanently` (hard delete). -/
def removeHabitPermanently (targetId : String) (m : HabitManager) :
    HabitManager × Bool :=
  (⟨m.habits.filter (fun e => e.1 ≠ targetId)⟩, m.habits.any (fun e => e.1 = targetId))

/-- `HabitManager.markHabitAsCompleted` applied to a stored habit: the
generic mark of today on either variant. -/
def rhMarkAsCompleted (today now : Int) : RHabit → RHabit
  | RHabit.solo h => RHabit.solo (markAsCompleted today now h)
  | RHabit.group g => RHabit.group (groupMarkAsCompleted today now g)

/-! ## Serialization and the factory -/

/-- The serialized `HabitData` shape of the final revision: base fields
plus the optional explicit variant discriminator and the optional
group-only fields. -/
structure HabitData where
  type : Option String
  id : String
  action : String
  goalDays : Int
  createdAt : Int
  updatedAt : Int
  currentStreak : Nat
  completedDays : List Int
  daysPerWeekDone : Nat
  isActive : Bool
  phoneNumbers : Option (List String)
  groupId : Option String
  memberCompletedDays : Option (List (String × List Int))
  failedDays : Option (List Int)
deriving Repr, DecidableEq

/-- `SoloHabit.toJSON`: base fields only, no discriminator and no group
fields. -/
def soloToJSON (h : Habit) : HabitData :=
  { type := none, id := h.id, action := h.action, goalDays := h.goalDays,
    createdAt := h.createdAt, updatedAt := h.updatedAt,
    currentStreak := h.currentStreak, completedDays := h.completedDays,
    daysPerWeekDone := h.daysPerWeekDone, isActive := h.isActive,
    phoneNumbers := none, groupId := none, memberCompletedDays := none,
    failedDays := none }

/-- `GroupHabit.toJSON`: every base and group field, with the explicit
discriminator set to the group tag. -/
def groupToJSON (g : GroupHabit) : HabitData :=
  { type := some "group", id := g.base.id, action := g.base.action,
    goalDays := g.base.goalDays, createdAt := g.base.createdAt,
    updatedAt := g.base.updatedAt, currentStreak := g.base.currentStreak,
    completedDays := g.base.completedDays,
    daysPerWeekDone := g.base.daysPerWeekDone, isActive := g.base.isActive,
    phoneNumbers := some g.phoneNumbers, groupId := some g.groupId,
    memberCompletedDays := some g.memberCompletedDays,
    failedDays := some g.failedDays }

/-- `SoloHabit.fromJSON`. -/
def soloFromJSON (d : HabitData) : Habit :=
  { id := d.id, action := d.action, goalDays := d.goalDays,
    createdAt := d.createdAt, updatedAt := d.updatedAt,
    currentStreak := d.currentStreak, completedDays := d.completedDays,
    daysPerWeekDone := d.daysPerWeekDone, isActive := d.isActive }

/-- `GroupHabit.fromJSON`: missing optional group fields fall back to
empty defaults; a missing group code would be regenerated (the generated
code is the ambient `genCode`). -/
def groupFromJSON (genCode : String) (d : HabitData) : GroupHabit :=
  mkGroupHabit d.action d.goalDays (d.phoneNumbers.getD []) d.completedDays d.id
    d.createdAt d.updatedAt d.currentStreak d.daysPerWeekDone d.isActive
    d.groupId genCode (d.memberCompletedDays.getD []) (d.failedDays.getD [])

/-- `HabitFactory.create`: the concrete variant is chosen by checking
whether a non-empty member list is present, not by reading the serialized
discriminator. -/
def factoryCreate (genCode : String) (d : HabitData) : RHabit :=
  match d.phoneNumbers with
  | some ps => if ps.length > 0 then RHabit.group (groupFromJSON genCode d)
      else RHabit.solo (soloFromJSON d)
  | none => RHabit.solo (soloFromJSON d)

/-- Whether a stored habit is the group variant. -/
def RHabit.isGroup : RHabit → Bool
  | RHabit.solo _ => false
  | RHabit.group _ => true

/-! ## Duration estimator (`computeAutopilotETA`) -/

/-- Substring test on character lists (every regex alternative in the
source is a literal string, so `text.match(/a|b/)` is containment of some
alternative). -/
def charListHas (p : List Char) : List Char → Bool
  | [] => p.isEmpty
  | c :: rest => p.isPrefixOf (c :: rest) || charListHas p rest

/-- Does the text contain any of the literal alternatives. -/
def matchesAny (t : String) (pats : List String) : Bool :=
  pats.any (fun p => charListHas p.data t.data)

/-- `toLowerCase`, as a character-wise map over the text. -/
def lowerString (s : String) : String :=
  ⟨s.data.map Char.toLower⟩

/-- `clamp(n, lo, hi) = Math.max(lo, Math.min(hi, n))`. -/
def clampQ (n lo hi : ℚ) : ℚ := max lo (min hi n)

/-- Integer clamp for the recommended day count. -/
def clampZ (n lo hi : Int) : Int := max lo (min hi n)

/-- `Math.round` of a rational: floor of the value plus one half. -/
def jsRound (q : ℚ) : Int := ⌊q + 1 / 2⌋

/-- `complexityMultiplier`: the trivially-easy keyword family
short-circuits to 0.9; otherwise additive bonuses per matching family,
clamped to the 0.85 to 1.35 band. -/
def complexityMultiplier (habit : String) : ℚ :=
  let t := lowerString habit
  if matchesAny t ["drink water", "water", "vitamin", "take meds", "stretch",
      "journal", "gratitude", "floss"] then 0.9
  else
    let score : ℚ := 1.0
    let score := if matchesAny t ["gym", "workout", "run", "cardio", "training",
        "lift", "yoga class"] then score + 0.18 else score
    let score := if matchesAny t ["meal prep", "cook", "clean house", "deep clean",
        "laundry", "vacuum"] then score + 0.16 else score
    let score := if matchesAny t ["study", "revise", "homework", "assignment",
        "coding", "project", "practice piano", "practice guitar"] then score + 0.14 else score
    clampQ score 0.85 1.35

/-- `valenceMultiplier`: keyword-family lookup for estimated resistance. -/
def valenceMultiplier (habit : String) : ℚ :=
  let t := lowerString habit
  if matchesAny t ["cold plunge", "ice bath", "laundry", "fold", "vacuum",
      "tax", "budget", "declutter"] then 1.18
  else if matchesAny t ["gym", "workout", "run", "study", "coding", "practice"] then 1.08
  else if matchesAny t ["walk", "read", "journal", "gratitude", "meditate",
      "music", "water"] then 0.95
  else 1.02

/-- `environmentFrictionMultiplier`: keyword-family lookup for setup
effort. -/
def environmentFrictionMultiplier (habit : String) : ℚ :=
  let t := lowerString habit
  if matchesAny t ["gym", "pool", "swim", "class", "commute", "drive", "go to"] then 1.22
  else if matchesAny t ["meal prep", "cook", "vacuum", "clean", "laundry"] then 1.15
  else if matchesAny t ["journal", "meditate", "stretch", "water", "read"] then 0.95
  else 1.05

/-- The optional context-stability input. -/
inductive CtxStability where
  | stable
  | mixed
  | chaotic
deriving Repr, DecidableEq

/-- `contextStabilityMultiplier` with its default. -/
def contextStabilityMultiplier : Option CtxStability → ℚ
  | some CtxStability.stable => 0.98
  | some CtxStability.chaotic => 1.18
  | some CtxStability.mixed => 1.08
  | none => 1.08

/-- The optional why-type input. -/
inductive WhyType where
  | identity
  | outcome
  | mixed
deriving Repr, DecidableEq

/-- `whyMultiplier` with its default. -/
def whyMultiplier : Option WhyType → ℚ
  | some WhyType.identity => 0.98
  | some WhyType.outcome => 1.12
  | some WhyType.mixed => 1.05
  | none => 1.06

/-- The difficulty bucket. -/
inductive Difficulty where
  | tiny
  | normal
  | stretch
deriving Repr, DecidableEq

/-- `rangeForDifficulty`. -/
def rangeForDifficulty : Difficulty → Int × Int
  | Difficulty.tiny => (18, 30)
  | Difficulty.normal => (30, 66)
  | Difficulty.stretch => (66, 120)

/-- `pickHabitDifficultyFromMetrics`: the weighted distance from neutral
with the conservative thresholds. -/
def pickHabitDifficultyFromMetrics (complexity emotionalValence environmentalFriction
    contextStability whyFactor : ℚ) : Difficulty :=
  let difficultyScore :=
    max 0 (complexity - 1) * 0.40 +
    max 0 (emotionalValence - 1) * 0.20 +
    max 0 (environmentalFriction - 1) * 0.25 +
    max 0 (contextStability - 1) * 0.10 +
    max 0 (whyFactor - 1) * 0.15
  if difficultyScore < 0.06 then Difficulty.tiny
  else if difficultyScore < 0.20 then Difficulty.normal
  else Difficulty.stretch

/-- `BASE_DAYS`. -/
def BASE_DAYS : ℚ := 66

/-- The breakdown payload of the estimator. -/
structure EtaBreakdown where
  baseDays : ℚ
  complexity : ℚ
  emotionalValence : ℚ
  environmentalFriction : ℚ
  contextStability : ℚ
  whyFactor : ℚ
  frictionComposite : ℚ
  rawEta : ℚ
  position : ℚ
deriving Repr, DecidableEq

/-- The estimator result. -/
structure EtaResult where
  recommendedDays : Int
  recommendedRange : Int × Int
  difficulty : Difficulty
  breakdown : EtaBreakdown
deriving Repr, DecidableEq

/-- `computeAutopilotETA`: the five multipliers, the difficulty bucket,
the clamped position inside the bucket range and the rounded recommended
day count. -/
def computeAutopilotETA (habitAction : String) (contextStability : Option CtxStability)
    (whyType : Option WhyType) : EtaResult :=
  let mComplexity := complexityMultiplier habitAction
  let mValence := valenceMultiplier habitAction
  let mEnv := environmentFrictionMultiplier habitAction
  let mContext := contextStabilityMultiplier contextStability
  let mWhy := whyMultiplier whyType
  let frictionComposite := mValence * mEnv * mContext * mWhy
  let difficulty := pickHabitDifficultyFromMetrics mComplexity mValence mEnv mContext mWhy
  let recommendedRange := rangeForDifficulty difficulty
  let lo := recommendedRange.1
  let hi := recommendedRange.2
  let position :=
    0.5 + (mComplexity - 1) * 0.35 + (mValence - 1) * 0.25 + (mEnv - 1) * 0.25 +
      (mContext - 1) * 0.20 + (mWhy - 1) * 0.20
  let position := clampQ position 0.25 0.75
  let recommendedDays := clampZ (jsRound ((lo : ℚ) + ((hi : ℚ) - (lo : ℚ)) * position)) lo hi
  let rawEta := clampQ (BASE_DAYS * mComplexity * frictionComposite) 18 120
  { recommendedDays := recommendedDays
    recommendedRange := recommendedRange
    difficulty := difficulty
    breakdown :=
      { baseDays := BASE_DAYS, complexity := mComplexity, emotionalValence := mValence,
        environmentalFriction := mEnv, contextStability := mContext, whyFactor := mWhy,
        frictionComposite := frictionComposite, rawEta := rawEta, position := position } }

/-! ## Operation sequences -/

/-- One base-entity day-toggling call (the ambient clock values are part
of the call). -/
inductive HOp where
  | mark (today now day : Int)
  | unmark (today now day : Int)
deriving Repr, DecidableEq

/-- Apply one base-entity call. -/
def applyHOp : HOp → Habit → Habit
  | HOp.mark today now day, h => markDayAsCompleted today now day h
  | HOp.unmark today now day, h => unmarkDayAsCompleted today now day h

/-- Apply a sequence of base-entity calls, first call first. -/
def applyHOps (ops : List HOp) (h : Habit) : Habit :=
  ops.foldl (fun h op => applyHOp op h) h

/-- One group-habit operation reachable through the repository: a member
check-in (a call for a non-member throws and changes nothing), a day
finalization, a membership change, or the generic completion toggles the
repository forwards to the entity. -/
inductive GOp where
  | memberCheckIn (today now : Int) (phone : String) (day? : Option Int)
  | finalize (today now day : Int)
  | addMember (now : Int) (p : String)
  | removeMember (now : Int) (p : String)
  | genericMark (today now : Int)
  | genericUnmark (today now : Int)
deriving Repr, DecidableEq

/-- Apply one group-habit operation. -/
def applyGOp : GOp → GroupHabit → GroupHabit
  | GOp.memberCheckIn today now phone day?, g =>
      (markMemberCompleted today now phone day? g).getD g
  | GOp.finalize today now day, g => finalizeDay today now day g
  | GOp.addMember now p, g => addPhoneNumber now p g
  | GOp.removeMember now p, g => removePhoneNumber now p g
  | GOp.genericMark today now, g => groupMarkAsCompleted today now g
  | GOp.genericUnmark today now, g => groupUnmarkAsCompleted today now g

/-- Apply a sequence of group-habit operations, first operation first. -/
def applyGOps (ops : List GOp) (g : GroupHabit) : GroupHabit :=
  ops.foldl (fun g op => applyGOp op g) g

/-- The mutual-exclusion property of a group habit: no day is at once in
the failed set and in the group-level completed set. -/
def FailedCompletedDisjoint (g : GroupHabit) : Prop :=
  ∀ d : Int, d ∈ g.base.completedDays → d ∉ g.failedDays

/-- Whether an operation is the generic repository mark
(`markHabitAsCompleted` forwarding to the inherited `markAsCompleted`). -/
def GOp.isGenericMark : GOp → Bool
  | GOp.genericMark _ _ => true
  | _ => false

/-! ## Helper lemmas -/

theorem markDayAsCompleted_of_mem {today now day : Int} {h : Habit}
    (hd : day ∈ h.completedDays) : markDayAsCompleted today now day h = h := by
  simp [markDayAsCompleted, hd]

theorem markDayAsCompleted_of_not_mem {today now day : Int} {h : Habit}
    (hd : day ∉ h.completedDays) :
    markDayAsCompleted today now day h =
      { h with completedDays := h.completedDays ++ [day],
               daysPerWeekDone := computeWeekDone today (h.completedDays ++ [day]),
               currentStreak := computeStreak today (h.completedDays ++ [day]),
               updatedAt := now } := by
  simp [markDayAsCompleted, hd, updateWeeklyProgress, updateStreak]

theorem unmarkDayAsCompleted_eq (today now day : Int) (h : Habit) :
    unmarkDayAsCompleted today now day h =
      { h with completedDays := h.completedDays.filter (fun d => d ≠ day),
               daysPerWeekDone :=
                 computeWeekDone today (h.completedDays.filter (fun d => d ≠ day)),
               currentStreak :=
                 computeStreak today (h.completedDays.filter (fun d => d ≠ day)),
               updatedAt := now } := rfl

theorem lookupDays_setDays_self (m : List (String × List Int)) (p : String)
    (v : List Int) : lookupDays (setDays m p v) p = some v := by
  induction m with
  | nil => simp [setDays, lookupDays]
  | cons e t ih =>
    by_cases hp : e.1 = p
    · simp [setDays, hp, lookupDays]
    · simp [setDays, hp, lookupDays, ih]

theorem lookupDays_setDays_ne (m : List (String × List Int)) {p q : String}
    (v : List Int) (hq : q ≠ p) : lookupDays (setDays m p v) q = lookupDays m q := by
  induction m with
  | nil => simp [setDays, lookupDays, Ne.symm hq]
  | cons e t ih =>
    by_cases hp : e.1 = p
    · simp [setDays, hp, lookupDays, Ne.symm hq]
    · simp [setDays, hp, lookupDays, ih]

theorem insertionSort_eq_of_perm {l tgt : List Int} (hp : l.Perm tgt)
    (hs : tgt.Sorted (· ≤ ·)) : List.insertionSort (· ≤ ·) l = tgt :=
  List.eq_of_perm_of_sorted ((List.perm_insertionSort _ l).trans hp)
    (List.sorted_insertionSort _ l) hs

theorem computeStreak_of_latest_ne_today {today : Int} {days : List Int}
    (hne : days ≠ []) (hpast : ∀ x ∈ days, x ≠ today) :
    computeStreak today days = 1 := by
  unfold computeStreak
  rw [if_neg hne]
  cases hr : (List.insertionSort (· ≤ ·) days).reverse with
  | nil =>
    exfalso
    have hsnil : List.insertionSort (· ≤ ·) days = [] := by
      simpa using congrArg List.reverse hr
    have hperm := List.perm_insertionSort (· ≤ ·) days
    rw [hsnil] at hperm
    exact hne hperm.nil_eq.symm
  | cons last rest =>
    have hmem : last ∈ (List.insertionSort (· ≤ ·) days).reverse := by
      rw [hr]; exact List.mem_cons_self last rest
    have hlast : last ∈ days :=
      (List.perm_insertionSort (· ≤ ·) days).mem_iff.mp (List.mem_reverse.mp hmem)
    have hlt : last ≠ today := hpast last hlast
    simp only [if_neg hlt, streakWalk]

/-! ## Claims C4 and C5 -/

/-- Claim C4: after recomputation, a habit whose completed days are
exactly the three consecutive days D-2, D-1, D with D equal to today has
streak 3; a habit with the gapped set D-2, D has streak 1; a habit with
no completed days has streak 0. -/
theorem c4_streak_values (d : Int) (h3 hGap h0 : Habit)
    (hp3 : h3.completedDays.Perm [d - 2, d - 1, d])
    (hpg : hGap.completedDays.Perm [d - 2, d])
    (hp0 : h0.completedDays = []) :
    (updateStreak d h3).currentStreak = 3 ∧
    (updateStreak d hGap).currentStreak = 1 ∧
    (updateStreak d h0).currentStreak = 0 := by
  refine ⟨?_, ?_, ?_⟩
  · have hne : h3.completedDays ≠ [] := by
      intro hnil
      have hlen := hp3.length_eq
      simp [hnil] at hlen
    have hsort : List.insertionSort (· ≤ ·) h3.completedDays = [d - 2, d - 1, d] :=
      insertionSort_eq_of_perm hp3 (by simp [List.sorted_cons]; all_goals omega)
    show computeStreak d h3.completedDays = 3
    unfold computeStreak
    rw [if_neg hne, hsort]
    have e1 : d - 1 - 1 = d - 2 := by ring
    simp [streakWalk, e1]
  · have hne : hGap.completedDays ≠ [] := by
      intro hnil
      have hlen := hpg.length_eq
      simp [hnil] at hlen
    have hsort : List.insertionSort (· ≤ ·) hGap.completedDays = [d - 2, d] :=
      insertionSort_eq_of_perm hpg (by simp [List.sorted_cons])
    show computeStreak d hGap.completedDays = 1
    unfold computeStreak
    rw [if_neg hne, hsort]
    have e2 : ¬ (d - 2 = d - 1) := by omega
    simp [streakWalk, e2]
  · show computeStreak d h0.completedDays = 0
    rw [hp0]
    rfl

/-- Witness for claim C4 at day 10 with concrete habits. -/
theorem c4_streak_values_witness :
    (updateStreak 10 ⟨"h1", "run", 30, 0, 0, 0, [10, 8, 9], 0, true⟩).currentStreak = 3 ∧
    (updateStreak 10 ⟨"h2", "run", 30, 0, 0, 0, [10, 8], 0, true⟩).currentStreak = 1 ∧
    (updateStreak 10 ⟨"h3", "run", 30, 0, 0, 0, [], 0, true⟩).currentStreak = 0 :=
  c4_streak_values 10 ⟨"h1", "run", 30, 0, 0, 0, [10, 8, 9], 0, true⟩
    ⟨"h2", "run", 30, 0, 0, 0, [10, 8], 0, true⟩
    ⟨"h3", "run", 30, 0, 0, 0, [], 0, true⟩
    (by decide) (by decide) (by decide)

/-- Counterexample to claim C5 as stated: a habit completed only
yesterday (day 9) and the day before (day 8), recomputed on day 10,
reports streak 1, not the run length 2 the claim asserts. -/
theorem c5_counterexample :
    (updateStreak 10 ⟨"h", "run", 30, 0, 0, 0, [9, 8], 0, true⟩).currentStreak = 1 ∧
    (updateStreak 10 ⟨"h", "run", 30, 0, 0, 0, [9, 8], 0, true⟩).currentStreak ≠ 2 := by
  decide

/-- Claim C5 amended: whenever the non-empty completed-day set contains
only days different from today (in particular when every entry is a past
day), the recomputed streak is 1 — the backward walk keeps its expected
cursor anchored at today, so the very first comparison against the latest
entry fails and the initial streak value 1 is kept, whatever run of
consecutive days ends at that latest entry. -/
theorem c5_amended_past_latest (h : Habit) (today : Int)
    (hne : h.completedDays ≠ [])
    (hpast : ∀ x ∈ h.completedDays, x ≠ today) :
    (updateStreak today h).currentStreak = 1 :=
  computeStreak_of_latest_ne_today hne hpast

/-- Witness for the amended claim C5 at the concrete two-day history. -/
theorem c5_amended_past_latest_witness :
    (updateStreak 10 ⟨"h", "run", 30, 0, 0, 0, [9, 8], 0, true⟩).currentStreak = 1 :=
  c5_amended_past_latest ⟨"h", "run", 30, 0, 0, 0, [9, 8], 0, true⟩ 10
    (by decide) (by decide)

/-! ## Claim C7 -/

theorem nodup_applyHOp (op : HOp) (h : Habit) (hn : h.completedDays.Nodup) :
    (applyHOp op h).completedDays.Nodup := by
  cases op with
  | mark today now day =>
    by_cases hd : day ∈ h.completedDays
    · rw [applyHOp, markDayAsCompleted_of_mem hd]
      exact hn
    · rw [applyHOp, markDayAsCompleted_of_not_mem hd]
      simpa [List.nodup_append] using ⟨hn, hd⟩
  | unmark today now day =>
    rw [applyHOp, unmarkDayAsCompleted_eq]
    exact hn.filter _

/-- Claim C7: along any sequence of day-marking and day-unmarking calls
starting from a duplicate-free history, the completed-day list stays
duplicate-free; and marking an already-present day is a complete no-op,
returning the habit with every field (history, streak, weekly count,
update timestamp) unchanged. -/
theorem c7_mark_idempotent_nodup :
    (∀ (ops : List HOp) (h : Habit), h.completedDays.Nodup →
      (applyHOps ops h).completedDays.Nodup) ∧
    (∀ (h : Habit) (today now day : Int), day ∈ h.completedDays →
      markDayAsCompleted today now day h = h) := by
  constructor
  · intro ops
    induction ops with
    | nil => intro h hn; exact hn
    | cons op rest ih =>
      intro h hn
      exact ih _ (nodup_applyHOp op h hn)
  · intro h today now day hd
    exact markDayAsCompleted_of_mem hd

/-- Witness for claim C7 on a concrete call sequence and a concrete
re-marking of day 3. -/
theorem c7_mark_idempotent_nodup_witness :
    (applyHOps [HOp.mark 10 1 5, HOp.unmark 11 2 5, HOp.mark 12 3 5]
      ⟨"h", "run", 30, 0, 0, 0, [3, 4], 0, true⟩).completedDays.Nodup ∧
    markDayAsCompleted 10 1 3 ⟨"h", "run", 30, 0, 0, 0, [3, 4], 0, true⟩ =
      ⟨"h", "run", 30, 0, 0, 0, [3, 4], 0, true⟩ :=
  ⟨c7_mark_idempotent_nodup.1 [HOp.mark 10 1 5, HOp.unmark 11 2 5, HOp.mark 12 3 5]
      ⟨"h", "run", 30, 0, 0, 0, [3, 4], 0, true⟩ (by decide),
    c7_mark_idempotent_nodup.2 ⟨"h", "run", 30, 0, 0, 0, [3, 4], 0, true⟩ 10 1 3 (by decide)⟩

/-! ## Claim C10 -/

/-- Claim C10: with a positive goal, `getProgress` is the finite value
`min(100, 100 * size / goalDays)`, which lies in the unit percentage
band; `edit` silently refuses a non-positive goal; the constructor and
hence the repository creation accept a zero goal unvalidated; and for
such a habit (zero goal, empty history) the unguarded division makes
`getProgress` return NaN, which is no number in the band. -/
theorem c10_progress_guard :
    (∀ h : Habit, 0 < h.goalDays →
      getProgress h =
        JsNum.num (min ((h.completedDays.length : ℚ) / (h.goalDays : ℚ) * 100) 100) ∧
      ∃ q : ℚ, getProgress h = JsNum.num q ∧ 0 ≤ q ∧ q ≤ 100) ∧
    (∀ (h : Habit) (a? : Option String) (g : Int) (now : Int), g ≤ 0 →
      (edit a? (some g) now h).goalDays = h.goalDays) ∧
    (∀ (a fid : String) (now : Int), (mkHabit a 0 fid now).goalDays = 0) ∧
    (∀ h : Habit, h.goalDays = 0 → h.completedDays = [] →
      getProgress h = JsNum.nan ∧ ∀ q : ℚ, getProgress h ≠ JsNum.num q) := by
  refine ⟨?_, ?_, ?_, ?_⟩
  · intro h hg
    have hgq : (h.goalDays : ℚ) ≠ 0 := by
      exact_mod_cast ne_of_gt hg
    have heq : getProgress h =
        JsNum.num (min ((h.completedDays.length : ℚ) / (h.goalDays : ℚ) * 100) 100) := by
      simp [getProgress, jsDiv, hgq, jsMulPos, jsMin]
    refine ⟨heq, _, heq, ?_, min_le_right _ _⟩
    have h0 : (0 : ℚ) ≤ (h.completedDays.length : ℚ) / (h.goalDays : ℚ) * 100 := by
      apply mul_nonneg _ (by norm_num)
      apply div_nonneg (by positivity)
      exact_mod_cast le_of_lt hg
    exact le_min h0 (by norm_num)
  · intro h a? g now hg
    cases a? <;> simp [edit, show ¬ (g > 0) from by omega]
  · intro a fid now
    rfl
  · intro h hg hcd
    constructor
    · simp [getProgress, hcd, hg, jsDiv, jsMulPos, jsMin]
    · intro q
      simp [getProgress, hcd, hg, jsDiv, jsMulPos, jsMin]

/-- Witness for claim C10 at a habit with goal 4 and two completions, and
at a freshly constructed habit with goal 0. -/
theorem c10_progress_guard_witness :
    getProgress ⟨"h", "run", 4, 0, 0, 0, [1, 2], 0, true⟩ = JsNum.num 50 ∧
    (edit none (some 0) 9 ⟨"h", "run", 4, 0, 0, 0, [1, 2], 0, true⟩).goalDays = 4 ∧
    (mkHabit "run" 0 "id" 0).goalDays = 0 ∧
    getProgress (mkHabit "run" 0 "id" 0) = JsNum.nan := by
  refine ⟨?_, ?_, ?_, ?_⟩
  · rw [(c10_progress_guard.1 ⟨"h", "run", 4, 0, 0, 0, [1, 2], 0, true⟩ (by norm_num)).1]
    norm_num
  · exact c10_progress_guard.2.1 ⟨"h", "run", 4, 0, 0, 0, [1, 2], 0, true⟩ none 0 9
      (by norm_num)
  · exact c10_progress_guard.2.2.1 "run" "id" 0
  · exact (c10_progress_guard.2.2.2 (mkHabit "run" 0 "id" 0) rfl rfl).1

/-! ## Claim C1 -/

theorem finalizeDay_fail_eq {today now day : Int} {g : GroupHabit}
    (hDf : day ∉ g.failedDays) (hnc : isGroupCompletedOn g day = false) :
    finalizeDay today now day g =
      { base := { g.base with
          completedDays := g.base.completedDays.filter (fun d => d ≠ day),
          daysPerWeekDone :=
            computeWeekDone today (g.base.completedDays.filter (fun d => d ≠ day)),
          currentStreak := 0,
          updatedAt := now },
        phoneNumbers := g.phoneNumbers,
        groupId := g.groupId,
        memberCompletedDays := g.phoneNumbers.foldl
          (fun m p => setDays m p (((lookupDays m p).getD []).filter (fun d => d ≠ day)))
          g.memberCompletedDays,
        failedDays := g.failedDays ++ [day] } := by
  simp [finalizeDay, failGroupOn, unmarkDayAsCompleted_eq, hDf, hnc,
    updateWeeklyProgress, updateStreak]

/-- Claim C1: finalizing a day on which only member A checked in records
the day as failed, clears it from every member record and from the
group-level completed days, resets the streak to zero, and makes a later
check-in by member B for that day a silent no-op that leaves the state
unchanged. -/
theorem c1_group_failure_lock (g : GroupHabit) (A B : String) (D t1 n1 t2 n2 : Int)
    (hAB : g.phoneNumbers = [A, B]) (hBA : A ≠ B)
    (hDf : D ∉ g.failedDays)
    (hA : D ∈ memberDays g A) (hB : D ∉ memberDays g B) :
    D ∈ (finalizeDay t1 n1 D g).failedDays ∧
    (∀ p ∈ (finalizeDay t1 n1 D g).phoneNumbers,
      D ∉ memberDays (finalizeDay t1 n1 D g) p) ∧
    D ∉ (finalizeDay t1 n1 D g).base.completedDays ∧
    (finalizeDay t1 n1 D g).base.currentStreak = 0 ∧
    markMemberCompleted t2 n2 B (some D) (finalizeDay t1 n1 D g) =
      some (finalizeDay t1 n1 D g) := by
  have hnc : isGroupCompletedOn g D = false := by
    simp [isGroupCompletedOn, hAB, hB]
  rw [finalizeDay_fail_eq hDf hnc]
  refine ⟨by simp, ?_, by simp, rfl, ?_⟩
  · intro p hp
    rw [hAB] at hp ⊢
    simp only [List.foldl_cons, List.foldl_nil, memberDays]
    rcases List.mem_cons.mp hp with rfl | hp2
    · rw [lookupDays_setDays_ne _ _ hBA, lookupDays_setDays_self]
      simp
    · rcases List.mem_cons.mp hp2 with rfl | hfalse
      · rw [lookupDays_setDays_self]
        simp
      · exact absurd hfalse (List.not_mem_nil p)
  · simp [markMemberCompleted, hAB]


/-- Witness for claim C1 on a concrete two-member group where only A
checked in for day 10. -/
theorem c1_group_failure_lock_witness :
    (10 : Int) ∈ (finalizeDay 10 1 10
      (⟨⟨"id1", "run", 30, 0, 0, 0, [], 0, true⟩, ["A", "B"], "code",
        [("A", [10]), ("B", [])], []⟩ : GroupHabit)).failedDays ∧
    (∀ p ∈ (finalizeDay 10 1 10
      (⟨⟨"id1", "run", 30, 0, 0, 0, [], 0, true⟩, ["A", "B"], "code",
        [("A", [10]), ("B", [])], []⟩ : GroupHabit)).phoneNumbers,
      (10 : Int) ∉ memberDays (finalizeDay 10 1 10
        (⟨⟨"id1", "run", 30, 0, 0, 0, [], 0, true⟩, ["A", "B"], "code",
          [("A", [10]), ("B", [])], []⟩ : GroupHabit)) p) ∧
    (10 : Int) ∉ (finalizeDay 10 1 10
      (⟨⟨"id1", "run", 30, 0, 0, 0, [], 0, true⟩, ["A", "B"], "code",
        [("A", [10]), ("B", [])], []⟩ : GroupHabit)).base.completedDays ∧
    (finalizeDay 10 1 10
      (⟨⟨"id1", "run", 30, 0, 0, 0, [], 0, true⟩, ["A", "B"], "code",
        [("A", [10]), ("B", [])], []⟩ : GroupHabit)).base.currentStreak = 0 ∧
    markMemberCompleted 11 2 "B" (some 10) (finalizeDay 10 1 10
      (⟨⟨"id1", "run", 30, 0, 0, 0, [], 0, true⟩, ["A", "B"], "code",
        [("A", [10]), ("B", [])], []⟩ : GroupHabit)) =
      some (finalizeDay 10 1 10
        (⟨⟨"id1", "run", 30, 0, 0, 0, [], 0, true⟩, ["A", "B"], "code",
          [("A", [10]), ("B", [])], []⟩ : GroupHabit)) :=
  c1_group_failure_lock
    (⟨⟨"id1", "run", 30, 0, 0, 0, [], 0, true⟩, ["A", "B"], "code",
      [("A", [10]), ("B", [])], []⟩ : GroupHabit) "A" "B" 10 10 1 11 2
    rfl (by decide) (by decide) (by decide) (by decide)

/-! ## Claim C2 -/

theorem isGroupCompletedOn_congr {g g2 : GroupHabit} (day : Int)
    (hph : g2.phoneNumbers = g.phoneNumbers)
    (hm : g2.memberCompletedDays = g.memberCompletedDays) :
    isGroupCompletedOn g2 day = isGroupCompletedOn g day := by
  simp [isGroupCompletedOn, memberDays, hph, hm]

theorem markMemberCompleted_eq_no_promote {t n : Int} {phone : String} {D : Int}
    {g : GroupHabit} (hmem : phone ∈ g.phoneNumbers) (hDf : D ∉ g.failedDays)
    (harr : D ∉ memberDays g phone)
    (hnc : isGroupCompletedOn
      { g with memberCompletedDays :=
          setDays g.memberCompletedDays phone (memberDays g phone ++ [D]) } D = false) :
    markMemberCompleted t n phone (some D) g =
      some { g with
        memberCompletedDays := setDays g.memberCompletedDays phone (memberDays g phone ++ [D]),
        base := { g.base with updatedAt := n } } := by
  have harr2 : D ∉ (lookupDays g.memberCompletedDays phone).getD [] := harr
  simp only [memberDays] at hnc
  simp only [markMemberCompleted, Option.getD_some]
  rw [if_pos hmem, if_neg hDf, if_neg harr2, if_neg (by rw [hnc]; simp)]
  rfl

theorem markMemberCompleted_eq_promote {t n : Int} {phone : String} {D : Int}
    {g : GroupHabit} (hmem : phone ∈ g.phoneNumbers) (hDf : D ∉ g.failedDays)
    (harr : D ∉ memberDays g phone)
    (hcomp : isGroupCompletedOn
      { g with memberCompletedDays :=
          setDays g.memberCompletedDays phone (memberDays g phone ++ [D]) } D = true)
    (hC : D ∉ g.base.completedDays) :
    markMemberCompleted t n phone (some D) g =
      some { g with
        memberCompletedDays := setDays g.memberCompletedDays phone (memberDays g phone ++ [D]),
        base := { g.base with
          completedDays := g.base.completedDays ++ [D],
          daysPerWeekDone := computeWeekDone t (g.base.completedDays ++ [D]),
          currentStreak := computeStreak t (g.base.completedDays ++ [D]),
          updatedAt := n } } := by
  have harr2 : D ∉ (lookupDays g.memberCompletedDays phone).getD [] := harr
  simp only [memberDays] at hcomp
  simp only [markMemberCompleted, Option.getD_some]
  rw [if_pos hmem, if_neg hDf, if_neg harr2, if_pos hcomp,
    markDayAsCompleted_of_not_mem hC]
  rfl

/-- Claim C2: group completion on a day holds exactly when the group has
at least one member and every current member completed that day (a
zero-member group is never completed); consequently, on a fresh day of a
two-member group, after only A checks in the group day is not completed
and not recorded, and after B also checks in the day is recorded in the
group completed days. -/
theorem c2_all_or_nothing :
    (∀ (g : GroupHabit) (day : Int),
      isGroupCompletedOn g day = true ↔
        g.phoneNumbers ≠ [] ∧ ∀ p ∈ g.phoneNumbers, day ∈ memberDays g p) ∧
    (∀ (g : GroupHabit) (A B : String) (D t1 n1 t2 n2 : Int),
      g.phoneNumbers = [A, B] → A ≠ B → D ∉ g.failedDays →
      D ∉ memberDays g A → D ∉ memberDays g B → D ∉ g.base.completedDays →
      ∃ g1 g2, markMemberCompleted t1 n1 A (some D) g = some g1 ∧
        isGroupCompletedOn g1 D = false ∧ D ∉ g1.base.completedDays ∧
        markMemberCompleted t2 n2 B (some D) g1 = some g2 ∧
        D ∈ g2.base.completedDays) := by
  constructor
  · intro g day
    cases hp : g.phoneNumbers with
    | nil => simp [isGroupCompletedOn, hp]
    | cons a l => simp [isGroupCompletedOn, hp, List.all_eq_true]
  · intro g A B D t1 n1 t2 n2 hAB hBA hDf hA0 hB0 hC0
    have hmemA : A ∈ g.phoneNumbers := by rw [hAB]; exact List.mem_cons_self A [B]
    have hB0x : D ∉ (lookupDays g.memberCompletedDays B).getD [] := hB0
    have hnc1 : isGroupCompletedOn
        { g with memberCompletedDays :=
            setDays g.memberCompletedDays A (memberDays g A ++ [D]) } D = false := by
      simp [isGroupCompletedOn, memberDays, hAB]
      intro _
      rw [lookupDays_setDays_ne g.memberCompletedDays
        ((lookupDays g.memberCompletedDays A).getD [] ++ [D]) (Ne.symm hBA)]
      exact hB0x
    have hstepA := markMemberCompleted_eq_no_promote (t := t1) (n := n1)
      hmemA hDf hA0 hnc1
    refine ⟨_, _, hstepA, (isGroupCompletedOn_congr D rfl rfl).trans hnc1, hC0,
      markMemberCompleted_eq_promote (t := t2) (n := n2) ?_ ?_ ?_ ?_ ?_, ?_⟩
    · show B ∈ g.phoneNumbers
      rw [hAB]
      simp
    · exact hDf
    · show D ∉ (lookupDays (setDays g.memberCompletedDays A (memberDays g A ++ [D])) B).getD []
      rw [lookupDays_setDays_ne g.memberCompletedDays (memberDays g A ++ [D]) (Ne.symm hBA)]
      exact hB0x
    · simp only [isGroupCompletedOn, memberDays, hAB]
      simp only [List.isEmpty_cons, Bool.false_eq_true, if_false, List.all_eq_true,
        List.mem_cons, List.mem_singleton, decide_eq_true_eq, forall_eq_or_imp, forall_eq,
        List.not_mem_nil, or_false]
      constructor
      · rw [lookupDays_setDays_ne
          (setDays g.memberCompletedDays A ((lookupDays g.memberCompletedDays A).getD [] ++ [D]))
          ((lookupDays (setDays g.memberCompletedDays A
            ((lookupDays g.memberCompletedDays A).getD [] ++ [D])) B).getD [] ++ [D])
          hBA]
        rw [lookupDays_setDays_self]
        simp
      · rw [lookupDays_setDays_self]
        simp
    · exact hC0
    · simp

/-- Witness for claim C2 on a concrete two-member group and day 10. -/
theorem c2_all_or_nothing_witness :
    ∃ g1 g2, markMemberCompleted 10 1 "A" (some 10)
        (⟨⟨"id2", "run", 30, 0, 0, 0, [], 0, true⟩, ["A", "B"], "code",
          [("A", []), ("B", [])], []⟩ : GroupHabit) = some g1 ∧
      isGroupCompletedOn g1 10 = false ∧ (10 : Int) ∉ g1.base.completedDays ∧
      markMemberCompleted 11 2 "B" (some 10) g1 = some g2 ∧
      (10 : Int) ∈ g2.base.completedDays :=
  c2_all_or_nothing.2
    (⟨⟨"id2", "run", 30, 0, 0, 0, [], 0, true⟩, ["A", "B"], "code",
      [("A", []), ("B", [])], []⟩ : GroupHabit) "A" "B" 10 10 1 11 2
    rfl (by decide) (by decide) (by decide) (by decide) (by decide)

/-! ## Claim C3 -/

theorem mem_markDay_completedDays {t n day d : Int} {h : Habit}
    (hx : d ∈ (markDayAsCompleted t n day h).completedDays) :
    d ∈ h.completedDays ∨ d = day := by
  by_cases hd : day ∈ h.completedDays
  · rw [markDayAsCompleted_of_mem hd] at hx
    exact Or.inl hx
  · rw [markDayAsCompleted_of_not_mem hd] at hx
    simpa using hx

theorem mem_unmarkDay_completedDays {t n day d : Int} {h : Habit}
    (hx : d ∈ (unmarkDayAsCompleted t n day h).completedDays) :
    d ∈ h.completedDays := by
  rw [unmarkDayAsCompleted_eq] at hx
  simp at hx
  exact hx.1

theorem finalizeDay_of_failed {t n day : Int} {g : GroupHabit}
    (h1 : day ∈ g.failedDays) : finalizeDay t n day g = g := by
  simp [finalizeDay, h1]

theorem markMemberCompleted_some_fields {t n : Int} {phone : String} {day? : Option Int}
    {g g2 : GroupHabit} (hres : markMemberCompleted t n phone day? g = some g2) :
    g2.failedDays = g.failedDays ∧
    (∀ d, d ∈ g2.base.completedDays →
      d ∈ g.base.completedDays ∨ (d = day?.getD t ∧ day?.getD t ∉ g.failedDays)) := by
  unfold markMemberCompleted at hres
  by_cases hmem : phone ∈ g.phoneNumbers
  case neg => rw [if_neg hmem] at hres; cases hres
  rw [if_pos hmem] at hres
  by_cases hfd : day?.getD t ∈ g.failedDays
  · rw [if_pos hfd] at hres
    obtain rfl := Option.some_injective _ hres
    exact ⟨rfl, fun d hd => Or.inl hd⟩
  · rw [if_neg hfd] at hres
    simp only [Option.some.injEq] at hres
    subst hres
    constructor
    · split <;> split <;> rfl
    · intro d hd
      split at hd <;> split at hd <;>
        first
          | exact Or.inl hd
          | exact (mem_markDay_completedDays hd).elim Or.inl (fun hdd => Or.inr ⟨hdd, hfd⟩)

theorem disjoint_finalizeDay {t n day : Int} {g : GroupHabit}
    (hd : FailedCompletedDisjoint g) : FailedCompletedDisjoint (finalizeDay t n day g) := by
  by_cases h1 : day ∈ g.failedDays
  · rw [finalizeDay_of_failed h1]
    exact hd
  · by_cases h2 : isGroupCompletedOn g day
    · unfold finalizeDay
      rw [if_neg h1, if_neg (by simp [h2])]
      intro d hdm
      by_cases h3 : day ∈ g.base.completedDays
      · simp only [if_pos h3] at hdm ⊢
        exact hd d hdm
      · simp only [if_neg h3] at hdm ⊢
        rcases mem_markDay_completedDays hdm with h | rfl
        · exact hd d h
        · exact h1
    · rw [finalizeDay_fail_eq h1 (by simpa using h2)]
      intro d hdm
      simp only [List.mem_filter, decide_eq_true_eq] at hdm
      simp only [List.mem_append, List.mem_singleton]
      rintro (hin | rfl)
      · exact hd d hdm.1 hin
      · exact hdm.2 rfl

theorem disjoint_applyGOp {op : GOp} {g : GroupHabit}
    (hop : op.isGenericMark = false) (hd : FailedCompletedDisjoint g) :
    FailedCompletedDisjoint (applyGOp op g) := by
  cases op with
  | memberCheckIn t nw phone day? =>
    show FailedCompletedDisjoint ((markMemberCompleted t nw phone day? g).getD g)
    cases hres : markMemberCompleted t nw phone day? g with
    | none => exact hd
    | some g2 =>
      simp only [Option.getD_some]
      obtain ⟨hfd, hsub⟩ := markMemberCompleted_some_fields hres
      intro d hdm
      rw [hfd]
      rcases hsub d hdm with h | ⟨rfl, hnot⟩
      · exact hd d h
      · exact hnot
  | finalize t nw day => exact disjoint_finalizeDay hd
  | addMember nw p =>
    show FailedCompletedDisjoint (addPhoneNumber nw p g)
    unfold addPhoneNumber
    split
    · exact hd
    · intro d hdm
      exact hd d hdm
  | removeMember nw p =>
    show FailedCompletedDisjoint (removePhoneNumber nw p g)
    intro d hdm
    exact hd d hdm
  | genericMark t nw => cases hop
  | genericUnmark t nw =>
    show FailedCompletedDisjoint (groupUnmarkAsCompleted t nw g)
    intro d hdm
    exact hd d (mem_unmarkDay_completedDays hdm)

/-- Counterexample to claim C3 as stated: from a fresh one-member group,
finalizing day 10 (which fails it) and then applying the generic
repository mark on day 10 leaves day 10 in the failed set and in the
group-level completed set at once — the generic path skips the
failed-day lock. -/
theorem c3_counterexample :
    (10 : Int) ∈ (applyGOps [GOp.finalize 10 1 10, GOp.genericMark 10 2]
      (createGroupHabitEntity "run" 30 ["A"] "id1" "g1" 0)).failedDays ∧
    (10 : Int) ∈ (applyGOps [GOp.finalize 10 1 10, GOp.genericMark 10 2]
      (createGroupHabitEntity "run" 30 ["A"] "id1" "g1" 0)).base.completedDays := by
  decide

theorem disjoint_applyGOps : ∀ (ops : List GOp) (g : GroupHabit),
    (∀ op ∈ ops, op.isGenericMark = false) → FailedCompletedDisjoint g →
    FailedCompletedDisjoint (applyGOps ops g)
  | [], _, _, hd => hd
  | op :: rest, _, hops, hd =>
    disjoint_applyGOps rest _ (fun o ho => hops o (List.mem_cons_of_mem op ho))
      (disjoint_applyGOp (hops op (List.mem_cons_self op rest)) hd)

/-- Claim C3 amended: the mutual exclusion of `failedDays` and the
group-level `completedDays` holds for every group habit reachable from
repository creation by member check-ins, day finalizations, membership
changes and the generic unmark — but the generic repository mark must be
excluded, because applied to a group habit on an already-failed day it
re-inserts that day into `completedDays`. -/
theorem c3_amended_invariant (ops : List GOp)
    (hops : ∀ op ∈ ops, op.isGenericMark = false)
    (action : String) (goal : Int) (phones : List String) (fid gc : String) (t0 : Int) :
    FailedCompletedDisjoint
      (applyGOps ops (createGroupHabitEntity action goal phones fid gc t0)) :=
  disjoint_applyGOps ops _ hops (fun d hdm => by cases hdm)

/-- Witness for the amended claim C3 on a concrete operation sequence. -/
theorem c3_amended_invariant_witness :
    FailedCompletedDisjoint
      (applyGOps [GOp.memberCheckIn 10 1 "A" (some 10), GOp.finalize 11 2 11,
          GOp.addMember 3 "B", GOp.memberCheckIn 12 4 "B" (some 12),
          GOp.removeMember 5 "A", GOp.genericUnmark 12 6]
        (createGroupHabitEntity "run" 30 ["A"] "id1" "g1" 0)) :=
  c3_amended_invariant
    [GOp.memberCheckIn 10 1 "A" (some 10), GOp.finalize 11 2 11,
      GOp.addMember 3 "B", GOp.memberCheckIn 12 4 "B" (some 12),
      GOp.removeMember 5 "A", GOp.genericUnmark 12 6]
    (by decide) "run" 30 ["A"] "id1" "g1" 0

/-! ## Claims C9 and C8 -/

theorem eta_drink_water_eval :
    (computeAutopilotETA "drink water" none none).difficulty = Difficulty.tiny ∧
    (computeAutopilotETA "drink water" none none).recommendedRange = (18, 30) ∧
    (computeAutopilotETA "drink water" none none).recommendedDays = 24 := by
  have e0 : lowerString "drink water" = "drink water" := by decide
  have c1 : complexityMultiplier "drink water" = 0.9 := by
    simp [complexityMultiplier, e0,
      show matchesAny "drink water" ["drink water", "water", "vitamin", "take meds",
        "stretch", "journal", "gratitude", "floss"] = true from by decide]
  have v1 : valenceMultiplier "drink water" = 0.95 := by
    simp [valenceMultiplier, e0,
      show matchesAny "drink water" ["cold plunge", "ice bath", "laundry", "fold",
        "vacuum", "tax", "budget", "declutter"] = false from by decide,
      show matchesAny "drink water" ["gym", "workout", "run", "study", "coding",
        "practice"] = false from by decide,
      show matchesAny "drink water" ["walk", "read", "journal", "gratitude",
        "meditate", "music", "water"] = true from by decide]
  have f1 : environmentFrictionMultiplier "drink water" = 0.95 := by
    simp [environmentFrictionMultiplier, e0,
      show matchesAny "drink water" ["gym", "pool", "swim", "class", "commute",
        "drive", "go to"] = false from by decide,
      show matchesAny "drink water" ["meal prep", "cook", "vacuum", "clean",
        "laundry"] = false from by decide,
      show matchesAny "drink water" ["journal", "meditate", "stretch", "water",
        "read"] = true from by decide]
  have hdiff : pickHabitDifficultyFromMetrics 0.9 0.95 0.95 1.08 1.06 = Difficulty.tiny := by
    simp only [pickHabitDifficultyFromMetrics]
    norm_num [max_def]
  have hpos : clampQ (0.5 + ((0.9 : ℚ) - 1) * 0.35 + ((0.95 : ℚ) - 1) * 0.25 +
      ((0.95 : ℚ) - 1) * 0.25 + ((1.08 : ℚ) - 1) * 0.20 + ((1.06 : ℚ) - 1) * 0.20)
      0.25 0.75 = 0.468 := by
    norm_num [clampQ, min_def, max_def]
  have hround : jsRound ((18 : ℚ) + ((30 : ℚ) - (18 : ℚ)) * 0.468) = 24 := by
    rw [jsRound, Int.floor_eq_iff]
    norm_num
  simp only [computeAutopilotETA, c1, v1, f1, contextStabilityMultiplier, whyMultiplier,
    hdiff, rangeForDifficulty, hpos]
  rw [show ((18 : Int) : ℚ) = (18 : ℚ) from by norm_num,
    show ((30 : Int) : ℚ) = (30 : ℚ) from by norm_num]
  rw [hround]
  refine ⟨trivial, trivial, ?_⟩
  norm_num [clampZ, min_def, max_def]

theorem eta_cold_plunge_eval :
    (computeAutopilotETA "cold plunge" none none).difficulty = Difficulty.normal ∧
    (computeAutopilotETA "cold plunge" none none).recommendedRange = (30, 66) ∧
    (computeAutopilotETA "cold plunge" none none).recommendedDays = 51 := by
  have e0 : lowerString "cold plunge" = "cold plunge" := by decide
  have c1 : complexityMultiplier "cold plunge" = 1 := by
    simp [complexityMultiplier, e0,
      show matchesAny "cold plunge" ["drink water", "water", "vitamin", "take meds",
        "stretch", "journal", "gratitude", "floss"] = false from by decide,
      show matchesAny "cold plunge" ["gym", "workout", "run", "cardio", "training",
        "lift", "yoga class"] = false from by decide,
      show matchesAny "cold plunge" ["meal prep", "cook", "clean house", "deep clean",
        "laundry", "vacuum"] = false from by decide,
      show matchesAny "cold plunge" ["study", "revise", "homework", "assignment",
        "coding", "project", "practice piano", "practice guitar"] = false from by decide,
      clampQ, min_def, max_def]
    norm_num
  have v1 : valenceMultiplier "cold plunge" = 1.18 := by
    simp [valenceMultiplier, e0,
      show matchesAny "cold plunge" ["cold plunge", "ice bath", "laundry", "fold",
        "vacuum", "tax", "budget", "declutter"] = true from by decide]
  have f1 : environmentFrictionMultiplier "cold plunge" = 1.05 := by
    simp [environmentFrictionMultiplier, e0,
      show matchesAny "cold plunge" ["gym", "pool", "swim", "class", "commute",
        "drive", "go to"] = false from by decide,
      show matchesAny "cold plunge" ["meal prep", "cook", "vacuum", "clean",
        "laundry"] = false from by decide,
      show matchesAny "cold plunge" ["journal", "meditate", "stretch", "water",
        "read"] = false from by decide]
  have hdiff : pickHabitDifficultyFromMetrics 1 1.18 1.05 1.08 1.06 = Difficulty.normal := by
    simp only [pickHabitDifficultyFromMetrics]
    norm_num [max_def]
  have hpos : clampQ (0.5 + ((1 : ℚ) - 1) * 0.35 + ((1.18 : ℚ) - 1) * 0.25 +
      ((1.05 : ℚ) - 1) * 0.25 + ((1.08 : ℚ) - 1) * 0.20 + ((1.06 : ℚ) - 1) * 0.20)
      0.25 0.75 = 0.5855 := by
    norm_num [clampQ, min_def, max_def]
  have hround : jsRound ((30 : ℚ) + ((66 : ℚ) - (30 : ℚ)) * 0.5855) = 51 := by
    rw [jsRound, Int.floor_eq_iff]
    norm_num
  simp only [computeAutopilotETA, c1, v1, f1, contextStabilityMultiplier, whyMultiplier,
    hdiff, rangeForDifficulty, hpos]
  rw [show ((30 : Int) : ℚ) = (30 : ℚ) from by norm_num,
    show ((66 : Int) : ℚ) = (66 : ℚ) from by norm_num]
  rw [hround]
  refine ⟨trivial, trivial, ?_⟩
  norm_num [clampZ, min_def, max_def]

/-- Counterexample to the tail of claim C9 as stated: the estimate for
"drink water" is 24 recommended days, which sits exactly at the midpoint
of the tiny range 18 to 30 — no closer to the range floor than to its
ceiling, so it does not land at or near the floor. -/
theorem c9_counterexample :
    (computeAutopilotETA "drink water" none none).recommendedDays = 24 ∧
    (computeAutopilotETA "drink water" none none).recommendedRange = (18, 30) ∧
    ¬((computeAutopilotETA "drink water" none none).recommendedDays - 18 <
      30 - (computeAutopilotETA "drink water" none none).recommendedDays) := by
  obtain ⟨h1, h2, h3⟩ := eta_drink_water_eval
  exact ⟨h3, h2, by rw [h3]; norm_num⟩

/-- Claim C9 amended: the estimate for "cold plunge" has difficulty
normal (not stretch) with 51 recommended days, strictly greater than the
24 days for "drink water"; "drink water" falls in the tiny bucket with
range 18 to 30 and its 24 recommended days lie inside that range, at its
midpoint rather than near the floor. -/
theorem c9_amended_estimator :
    (computeAutopilotETA "cold plunge" none none).recommendedDays = 51 ∧
    (computeAutopilotETA "cold plunge" none none).difficulty = Difficulty.normal ∧
    (computeAutopilotETA "drink water" none none).recommendedDays = 24 ∧
    (computeAutopilotETA "drink water" none none).difficulty = Difficulty.tiny ∧
    (computeAutopilotETA "drink water" none none).recommendedRange = (18, 30) ∧
    (computeAutopilotETA "cold plunge" none none).recommendedDays >
      (computeAutopilotETA "drink water" none none).recommendedDays ∧
    18 ≤ (computeAutopilotETA "drink water" none none).recommendedDays ∧
    (computeAutopilotETA "drink water" none none).recommendedDays ≤ 30 := by
  obtain ⟨hd1, hd2, hd3⟩ := eta_drink_water_eval
  obtain ⟨hc1, hc2, hc3⟩ := eta_cold_plunge_eval
  refine ⟨hc3, hc1, hd3, hd1, hd2, ?_, ?_, ?_⟩ <;> rw [hd3]
  · rw [hc3]; norm_num
  · norm_num
  · norm_num

/-- Claim C8 (code bug): a serialized zero-member GroupHabit carries the
explicit discriminator for the group variant, yet the factory dispatches
on member-list non-emptiness and reconstructs a SoloHabit, losing the
group identity (and with it the failed days and per-member records). -/
theorem c8_factory_dispatch_bug :
    (groupToJSON (mkGroupHabit "meditate" 30 [] [] "id8" 0 0 0 0 true
      (some "code8") "code8" [("X", [3])] [5])).type = some "group" ∧
    (groupToJSON (mkGroupHabit "meditate" 30 [] [] "id8" 0 0 0 0 true
      (some "code8") "code8" [("X", [3])] [5])).failedDays = some [5] ∧
    (groupToJSON (mkGroupHabit "meditate" 30 [] [] "id8" 0 0 0 0 true
      (some "code8") "code8" [("X", [3])] [5])).memberCompletedDays = some [("X", [3])] ∧
    RHabit.isGroup (factoryCreate "c2" (groupToJSON (mkGroupHabit "meditate" 30 [] []
      "id8" 0 0 0 0 true (some "code8") "code8" [("X", [3])] [5]))) = false := by
  decide

/-! ## Claim C6 -/

theorem deactivate_not_active (nw : Int) (r : RHabit) :
    (r.deactivate nw).active = false := by
  cases r <;> rfl

theorem getActiveHabits_length (m : HabitManager) :
    (getActiveHabits m).length = (m.habits.filter (fun e => e.2.active)).length := by
  suffices h : ∀ l : List (String × RHabit),
      ((l.map (fun e => e.2)).filter RHabit.active).length =
        (l.filter (fun e => e.2.active)).length from h m.habits
  intro l
  induction l with
  | nil => rfl
  | cons e t ih =>
    by_cases ha : e.2.active <;> simp [List.filter_cons, ha, ih]

theorem softdel_filter_le (tid : String) (nw : Int) :
    ∀ l : List (String × RHabit),
      ((l.map (fun e => if e.1 = tid then (e.1, e.2.deactivate nw) else e)).filter
        (fun e => e.2.active)).length ≤ (l.filter (fun e => e.2.active)).length := by
  intro l
  induction l with
  | nil => exact Nat.le_refl 0
  | cons e t ih =>
    by_cases h1 : e.1 = tid
    · by_cases ha : e.2.active
      · simp only [List.map_cons, List.filter_cons, h1, if_pos, deactivate_not_active, ha]
        simp only [Bool.false_eq_true, if_false, if_true]
        exact Nat.le_succ_of_le ih
      · simp [List.filter_cons, h1, deactivate_not_active, ha, ih]
    · by_cases ha : e.2.active <;> simp [List.filter_cons, h1, ha, ih]

theorem softdel_filter_lt (tid : String) (nw : Int) :
    ∀ l : List (String × RHabit), (∃ e ∈ l, e.1 = tid ∧ e.2.active = true) →
      ((l.map (fun e => if e.1 = tid then (e.1, e.2.deactivate nw) else e)).filter
        (fun e => e.2.active)).length < (l.filter (fun e => e.2.active)).length := by
  intro l
  induction l with
  | nil => rintro ⟨w, hw, -⟩; cases hw
  | cons e t ih =>
    rintro ⟨w, hwmem, hw1, hw2⟩
    rcases List.mem_cons.mp hwmem with rfl | hmem
    · simp only [List.map_cons, List.filter_cons, hw1, if_pos, deactivate_not_active,
        hw2, Bool.false_eq_true, if_false, if_true]
      exact Nat.lt_succ_of_le (softdel_filter_le tid nw t)
    · by_cases h1 : e.1 = tid
      · by_cases ha : e.2.active
        · simp only [List.map_cons, List.filter_cons, h1, if_pos, deactivate_not_active, ha,
            Bool.false_eq_true, if_false, if_true]
          exact Nat.lt_succ_of_le (softdel_filter_le tid nw t)
        · simp only [List.map_cons, List.filter_cons, h1, if_pos, deactivate_not_active, ha,
            Bool.false_eq_true, if_false]
          exact ih ⟨w, hmem, hw1, hw2⟩
      · by_cases ha : e.2.active <;>
          simp only [List.map_cons, List.filter_cons, h1, if_neg, ha, Bool.false_eq_true,
            if_false, if_true, List.length_cons] <;>
          first
            | exact Nat.succ_lt_succ (ih ⟨w, hmem, hw1, hw2⟩)
            | exact ih ⟨w, hmem, hw1, hw2⟩

theorem harddel_filter_lt (tid : String) :
    ∀ l : List (String × RHabit), (∃ e ∈ l, e.1 = tid ∧ e.2.active = true) →
      ((l.filter (fun e => e.1 ≠ tid)).filter (fun e => e.2.active)).length <
        (l.filter (fun e => e.2.active)).length := by
  intro l
  induction l with
  | nil => rintro ⟨w, hw, -⟩; cases hw
  | cons e t ih =>
    rintro ⟨w, hwmem, hw1, hw2⟩
    have hle : ∀ u : List (String × RHabit),
        ((u.filter (fun e => e.1 ≠ tid)).filter (fun e => e.2.active)).length ≤
          (u.filter (fun e => e.2.active)).length := by
      intro u
      induction u with
      | nil => exact Nat.le_refl 0
      | cons x xs ihx =>
        by_cases hx : x.1 = tid
        · by_cases hax : x.2.active
          · simp only [List.filter_cons, hx, hax, ne_eq, not_true_eq_false, decide_False,
              Bool.false_eq_true, if_false, if_true]
            exact Nat.le_succ_of_le ihx
          · simp only [List.filter_cons, hx, hax, ne_eq, not_true_eq_false, decide_False,
              Bool.false_eq_true, if_false]
            exact ihx
        · by_cases hax : x.2.active
          · simp only [List.filter_cons, hx, hax, ne_eq, not_false_eq_true, decide_True,
              Bool.false_eq_true, if_false, if_true, List.length_cons]
            exact Nat.succ_le_succ ihx
          · simp only [List.filter_cons, hx, hax, ne_eq, not_false_eq_true, decide_True,
              Bool.false_eq_true, if_false, if_true]
            exact ihx
    rcases List.mem_cons.mp hwmem with rfl | hmem
    · simp only [List.filter_cons, hw1, hw2]
      simp only [ne_eq, not_true_eq_false, decide_False, Bool.false_eq_true, if_false, if_true]
      exact Nat.lt_succ_of_le (hle t)
    · by_cases h1 : e.1 = tid
      · by_cases ha : e.2.active
        · simp only [List.filter_cons, h1, ha, ne_eq, not_true_eq_false, decide_False,
            Bool.false_eq_true, if_false, if_true]
          exact Nat.lt_succ_of_le (hle t)
        · simp only [List.filter_cons, h1, ha, ne_eq, not_true_eq_false, decide_False,
            Bool.false_eq_true, if_false]
          exact ih ⟨w, hmem, hw1, hw2⟩
      · by_cases ha : e.2.active <;>
          simp only [List.filter_cons, h1, ha, ne_eq, not_false_eq_true, decide_True,
            Bool.false_eq_true, if_false, if_true, List.length_cons] <;>
          first
            | exact Nat.succ_lt_succ (ih ⟨w, hmem, hw1, hw2⟩)
            | exact ih ⟨w, hmem, hw1, hw2⟩

theorem createSoloHabit_eq_none_iff (m : HabitManager) (a : String) (gd : Int)
    (fid : String) (nw : Int) :
    createSoloHabit a gd fid nw m = none ↔ 3 ≤ (getActiveHabits m).length := by
  unfold createSoloHabit isAtMaxHabits MAX_HABITS
  by_cases h : 3 ≤ (getActiveHabits m).length <;> simp [h]

theorem createGroupHabit_eq_none_iff (m : HabitManager) (a : String) (gd : Int)
    (ph : List String) (fid gc : String) (nw : Int) :
    createGroupHabit a gd ph fid gc nw m = none ↔ 3 ≤ (getActiveHabits m).length := by
  unfold createGroupHabit isAtMaxHabits MAX_HABITS
  by_cases h : 3 ≤ (getActiveHabits m).length <;> simp [h]

theorem createSoloHabit_succeeds {m : HabitManager} (a : String) (gd : Int)
    (fid : String) (nw : Int) (hlt : (getActiveHabits m).length < 3) :
    ∃ m2, createSoloHabit a gd fid nw m = some (mkHabit a gd fid nw, m2) := by
  unfold createSoloHabit isAtMaxHabits MAX_HABITS
  rw [if_neg (by simpa using Nat.not_le.mpr hlt)]
  exact ⟨_, rfl⟩

/-- Claim C6: both creations return the null result exactly when the
count of habits with the active flag is already at the limit of 3
(soft-deleted and hard-deleted habits are not counted); at the limit,
soft-deleting or hard-deleting one active habit makes the next creation
succeed and return the freshly constructed habit. -/
theorem c6_capacity_policy :
    (∀ (m : HabitManager) (a : String) (gd : Int) (fid : String) (nw : Int),
      createSoloHabit a gd fid nw m = none ↔ 3 ≤ (getActiveHabits m).length) ∧
    (∀ (m : HabitManager) (a : String) (gd : Int) (ph : List String) (fid gc : String)
      (nw : Int),
      createGroupHabit a gd ph fid gc nw m = none ↔ 3 ≤ (getActiveHabits m).length) ∧
    (∀ (m : HabitManager) (a : String) (gd : Int) (fid : String) (nw : Int),
      (getActiveHabits m).length ≤ 3 →
      (createSoloHabit a gd fid nw m = none ↔ (getActiveHabits m).length = 3)) ∧
    (∀ (m : HabitManager) (tid a : String) (gd : Int) (fid : String) (nw nw2 : Int),
      (getActiveHabits m).length = 3 →
      (∃ e ∈ m.habits, e.1 = tid ∧ e.2.active = true) →
      (∃ m2, createSoloHabit a gd fid nw2 (deleteHabit nw tid m).1 =
        some (mkHabit a gd fid nw2, m2)) ∧
      (∃ m2, createSoloHabit a gd fid nw2 (removeHabitPermanently tid m).1 =
        some (mkHabit a gd fid nw2, m2))) := by
  refine ⟨createSoloHabit_eq_none_iff, createGroupHabit_eq_none_iff, ?_, ?_⟩
  · intro m a gd fid nw hle
    rw [createSoloHabit_eq_none_iff]
    omega
  · intro m tid a gd fid nw nw2 h3 hex
    constructor
    · apply createSoloHabit_succeeds
      have hany : m.habits.any (fun e => e.1 = tid) = true := by
        obtain ⟨w, hw, hw1, -⟩ := hex
        exact List.any_eq_true.mpr ⟨w, hw, by simp [hw1]⟩
      have hlt := softdel_filter_lt tid nw m.habits hex
      rw [getActiveHabits_length] at h3 ⊢
      unfold deleteHabit
      rw [if_pos hany]
      calc ((m.habits.map (fun e => if e.1 = tid then (e.1, e.2.deactivate nw) else e)).filter
            (fun e => e.2.active)).length
          < (m.habits.filter (fun e => e.2.active)).length := hlt
        _ = 3 := h3
    · apply createSoloHabit_succeeds
      have hlt := harddel_filter_lt tid m.habits hex
      rw [getActiveHabits_length] at h3 ⊢
      unfold removeHabitPermanently
      calc ((m.habits.filter (fun e => e.1 ≠ tid)).filter (fun e => e.2.active)).length
          < (m.habits.filter (fun e => e.2.active)).length := hlt
        _ = 3 := h3

/-- Witness for claim C6 on a concrete repository holding three active
solo habits. -/
theorem c6_capacity_policy_witness :
    createSoloHabit "swim" 20 "h4" 5
      (⟨[("h1", RHabit.solo ⟨"h1", "run", 30, 0, 0, 0, [], 0, true⟩),
        ("h2", RHabit.solo ⟨"h2", "read", 30, 0, 0, 0, [], 0, true⟩),
        ("h3", RHabit.solo ⟨"h3", "cook", 30, 0, 0, 0, [], 0, true⟩)]⟩ : HabitManager) =
      none ∧
    (∃ m2, createSoloHabit "swim" 20 "h4" 6 (deleteHabit 5 "h1"
      (⟨[("h1", RHabit.solo ⟨"h1", "run", 30, 0, 0, 0, [], 0, true⟩),
        ("h2", RHabit.solo ⟨"h2", "read", 30, 0, 0, 0, [], 0, true⟩),
        ("h3", RHabit.solo ⟨"h3", "cook", 30, 0, 0, 0, [], 0, true⟩)]⟩ : HabitManager)).1 =
      some (mkHabit "swim" 20 "h4" 6, m2)) ∧
    (∃ m2, createSoloHabit "swim" 20 "h4" 6 (removeHabitPermanently "h1"
      (⟨[("h1", RHabit.solo ⟨"h1", "run", 30, 0, 0, 0, [], 0, true⟩),
        ("h2", RHabit.solo ⟨"h2", "read", 30, 0, 0, 0, [], 0, true⟩),
        ("h3", RHabit.solo ⟨"h3", "cook", 30, 0, 0, 0, [], 0, true⟩)]⟩ : HabitManager)).1 =
      some (mkHabit "swim" 20 "h4" 6, m2)) :=
  ⟨(c6_capacity_policy.1
      (⟨[("h1", RHabit.solo ⟨"h1", "run", 30, 0, 0, 0, [], 0, true⟩),
        ("h2", RHabit.solo ⟨"h2", "read", 30, 0, 0, 0, [], 0, true⟩),
        ("h3", RHabit.solo ⟨"h3", "cook", 30, 0, 0, 0, [], 0, true⟩)]⟩ : HabitManager)
      "swim" 20 "h4" 5).mpr (by decide),
    (c6_capacity_policy.2.2.2
      (⟨[("h1", RHabit.solo ⟨"h1", "run", 30, 0, 0, 0, [], 0, true⟩),
        ("h2", RHabit.solo ⟨"h2", "read", 30, 0, 0, 0, [], 0, true⟩),
        ("h3", RHabit.solo ⟨"h3", "cook", 30, 0, 0, 0, [], 0, true⟩)]⟩ : HabitManager)
      "h1" "swim" 20 "h4" 5 6 (by decide)
      ⟨("h1", RHabit.solo ⟨"h1", "run", 30, 0, 0, 0, [], 0, true⟩), by decide, by decide⟩).1,
    (c6_capacity_policy.2.2.2
      (⟨[("h1", RHabit.solo ⟨"h1", "run", 30, 0, 0, 0, [], 0, true⟩),
        ("h2", RHabit.solo ⟨"h2", "read", 30, 0, 0, 0, [], 0, true⟩),
        ("h3", RHabit.solo ⟨"h3", "cook", 30, 0, 0, 0, [], 0, true⟩)]⟩ : HabitManager)
      "h1" "swim" 20 "h4" 5 6 (by decide)
      ⟨("h1", RHabit.solo ⟨"h1", "run", 30, 0, 0, 0, [], 0, true⟩), by decide, by decide⟩).2⟩

end Loop

